import Mathlib

/-!
Shallow embedding of `crates/bevy_sprite/src/dynamic_texture_atlas_builder.rs`.

The builder owns a rectangle allocator (the external `guillotiere`
crate, kept abstract behind the contract stated in the spec) and a
`padding` parameter.  `add_texture` allocates a padded cell, copies the
source image's bytes row by row into the shared atlas buffer, trims the
padding from the placed rectangle and appends the result to the layout
registry.

Machine integers are modelled as `Nat` (`u32`/`usize`) and `Int` (`i32`),
with explicit `% 2^32` where the source's `u32` addition can wrap.
Byte buffers are `List Nat`; the row copy (`copy_from_slice` over index
ranges) is modelled pointwise, which agrees with the source on every
execution whose slice indices are in bounds (out-of-bounds slicing
panics in the source and is excluded by explicit bound hypotheses in the
theorems that inspect bytes).  Panics (`panic!`, `expect`, `assert!`)
are modelled with `Except PanicKind`.
-/

set_option autoImplicit false

namespace DynAtlas

/-- 2D vector with unsigned (`u32`) components, as in `bevy_math::UVec2`. -/
structure UVec2 where
  x : Nat
  y : Nat
  deriving DecidableEq, Repr

/-- Axis-aligned rectangle with unsigned corners, as in `bevy_math::URect`.
The rectangle covers the half-open ranges `[min.x, max.x) × [min.y, max.y)`. -/
structure URect where
  min : UVec2
  max : UVec2
  deriving DecidableEq, Repr

/-- Width of a `URect`, `max.x - min.x` (as in `bevy_math`). -/
def URect.width (r : URect) : Nat := r.max.x - r.min.x

/-- Height of a `URect`, `max.y - min.y` (as in `bevy_math`). -/
def URect.height (r : URect) : Nat := r.max.y - r.min.y

/-- 2D point/size with signed (`i32`) components, the allocator's
coordinate domain (`guillotiere::Point` / `guillotiere::Size`). -/
structure IVec2 where
  x : Int
  y : Int
  deriving DecidableEq, Repr

/-- Rectangle in the allocator's signed coordinate domain
(`guillotiere::Rectangle`), half-open in both axes. -/
structure IRect where
  min : IVec2
  max : IVec2
  deriving DecidableEq, Repr

/-- `2^32`: modulus of `u32` arithmetic. -/
def U32_MOD : Nat := 2 ^ 32

/-- `i32::MAX = 2^31 - 1`, the largest `u32` value accepted by
`u32::try_into::<i32>()`. -/
def I32_MAX : Nat := 2 ^ 31 - 1

/-- `u32 -> i32` conversion via `try_into`: succeeds iff the value fits. -/
def u32_to_i32 (n : Nat) : Option Int :=
  if n ≤ I32_MAX then some (n : Int) else none

/-- `i32 -> u32` conversion via `try_into`: succeeds iff non-negative
(every non-negative `i32` fits in `u32`). -/
def i32_to_u32 (n : Int) : Option Nat :=
  if 0 ≤ n then some n.toNat else none

/-- `to_size2` from the source: converts a `UVec2` to a `guillotiere::Size`,
failing if either component does not fit in `i32`. -/
def to_size2 (vec2 : UVec2) : Option IVec2 := do
  let x ← u32_to_i32 vec2.x
  let y ← u32_to_i32 vec2.y
  some ⟨x, y⟩

/-- `to_rect` from the source: converts a `guillotiere::Rectangle` to a
`URect`, failing if any coordinate is negative. -/
def to_rect (rectangle : IRect) : Option URect := do
  let minx ← i32_to_u32 rectangle.min.x
  let miny ← i32_to_u32 rectangle.min.y
  let maxx ← i32_to_u32 rectangle.max.x
  let maxy ← i32_to_u32 rectangle.max.y
  some ⟨⟨minx, miny⟩, ⟨maxx, maxy⟩⟩

/-- An image buffer as seen through the Image Store contract: width,
height, pixel-format byte size (`texture_descriptor.format.pixel_size()`),
raw bytes (`data`), and whether `asset_usage()` contains
`RenderAssetUsages::MAIN_WORLD`. -/
structure Image where
  width : Nat
  height : Nat
  pixel_size : Nat
  data : List Nat
  main_world : Bool
  deriving DecidableEq, Repr

/-- The distinct panics (`panic!` / `expect` / `assert!`) of the source. -/
inductive PanicKind where
  /-- `new`: `panic!("invalid size for texture atlas allocation: ...")`. -/
  | invalidAtlasSize
  /-- `add_texture`: `.expect("TextureAtlasLayout asset should exist")`. -/
  | missingAtlasAsset
  /-- `add_texture`: `assert!(... MAIN_WORLD ...)`. -/
  | usageNotMainWorld
  /-- `add_texture`: `.expect("invalid texture allocation rect")`. -/
  | invalidAllocationRect
  deriving DecidableEq, Repr

/-- `DynamicTextureAtlasBuilder`: the allocator state (abstract type `σ`,
the `guillotiere::AtlasAllocator` being an external collaborator) and the
padding parameter. -/
structure DynamicTextureAtlasBuilder (σ : Type) where
  atlas_allocator : σ
  padding : Nat
  deriving DecidableEq, Repr

/-- `DynamicTextureAtlasBuilder::new`: initialize the allocator with the
canvas size, panicking when the size does not fit the allocator's `i32`
coordinate domain.  `mkAllocator` abstracts `AtlasAllocator::new`. -/
def DynamicTextureAtlasBuilder.new {σ : Type} (mkAllocator : IVec2 → σ)
    (size : UVec2) (padding : Nat) :
    Except PanicKind (DynamicTextureAtlasBuilder σ) :=
  match to_size2 size with
  | none => .error .invalidAtlasSize
  | some s => .ok ⟨mkAllocator s, padding⟩

/-- Byte at index `i` of a buffer (0 past the end). -/
def byteAt (l : List Nat) (i : Nat) : Nat := l.getD i 0

/-- One iteration of the copy loop:
`dst[dOff..dOff+len].copy_from_slice(&src[sOff..sOff+len])`, modelled
pointwise (agrees with the source whenever the ranges are in bounds). -/
def writeRow (dst src : List Nat) (dOff sOff len : Nat) : List Nat :=
  (List.range dst.length).map fun i =>
    if dOff ≤ i ∧ i < dOff + len then src.getD (sOff + (i - dOff)) 0
    else dst.getD i 0

/-- The first `n` iterations of the copy loop of `place_texture`: row `k`
(for `k < n`) is copied from source offset `k * rw * f` to destination
offset `((mY + k) * W + mX) * f`, `rw * f` bytes each. -/
def copyRows (dst src : List Nat) (W mX mY rw f : Nat) : Nat → List Nat
  | 0 => dst
  | n + 1 =>
      writeRow (copyRows dst src W mX mY rw f n) src
        (((mY + n) * W + mX) * f) (n * (rw * f)) (rw * f)

/-- `DynamicTextureAtlasBuilder::place_texture`: trim the padding from the
allocation rectangle's max corner (`i32` subtraction) and copy the texture
bytes row by row into the atlas buffer. -/
def place_texture (atlas_texture : Image) (allocation : IRect)
    (texture : Image) (padding : Nat) : Image :=
  let maxX : Int := allocation.max.x - (padding : Int)
  let maxY : Int := allocation.max.y - (padding : Int)
  let atlas_width : Nat := atlas_texture.width
  let rect_width : Nat := (maxX - allocation.min.x).toNat
  let format_size : Nat := atlas_texture.pixel_size
  { atlas_texture with
    data := copyRows atlas_texture.data texture.data atlas_width
      allocation.min.x.toNat allocation.min.y.toNat rect_width format_size
      (maxY - allocation.min.y).toNat }

/-- Modelled from the spec: `TextureAtlasLayout::add_texture` (the Layout
Registry, whose source is not under `src/`) appends the rectangle to the
ordered list and returns the index of the newly added entry. -/
def layout_add_texture (layout : List URect) (rect : URect) :
    Nat × List URect :=
  (layout.length, layout ++ [rect])

/-- Result of a completed (non-panicking) `add_texture` call: the returned
index (if any) and the final builder, layout registry and atlas buffer
(`none` when the handle does not resolve in the image store). -/
structure AddTextureResult (σ : Type) where
  ret : Option Nat
  builder : DynamicTextureAtlasBuilder σ
  atlas_layout : List URect
  atlas_texture : Option Image
  deriving DecidableEq, Repr

/-- `DynamicTextureAtlasBuilder::add_texture`.  `allocate` abstracts
`AtlasAllocator::allocate` (state in, size in; optional placed rectangle
and new state out).  `textures` is the image store's lookup result for
`atlas_texture_handle`.  The `u32` additions `width + padding` and
`height + padding` are taken `% 2^32` (release-mode wrap semantics). -/
def add_texture {σ : Type} (allocate : σ → IVec2 → Option IRect × σ)
    (b : DynamicTextureAtlasBuilder σ) (atlas_layout : List URect)
    (textures : Option Image) (texture : Image) :
    Except PanicKind (AddTextureResult σ) :=
  match to_size2 ⟨(texture.width + b.padding) % U32_MOD,
                  (texture.height + b.padding) % U32_MOD⟩ with
  | none => .ok ⟨none, b, atlas_layout, textures⟩
  | some size =>
    let res := allocate b.atlas_allocator size
    let b' : DynamicTextureAtlasBuilder σ := ⟨res.2, b.padding⟩
    match res.1 with
    | none => .ok ⟨none, b', atlas_layout, textures⟩
    | some allocation =>
      match textures with
      | none => .error .missingAtlasAsset
      | some atlas_texture =>
        if atlas_texture.main_world then
          let atlas_texture := place_texture atlas_texture allocation
            texture b'.padding
          match to_rect allocation with
          | none => .error .invalidAllocationRect
          | some rect0 =>
            let rect : URect := ⟨rect0.min,
              ⟨rect0.max.x - b'.padding, rect0.max.y - b'.padding⟩⟩
            let (index, layout') := layout_add_texture atlas_layout rect
            .ok ⟨some index, b', layout', some atlas_texture⟩
        else .error .usageNotMainWorld

/-- Running a sequence of `add_texture` calls on one builder, threading
the builder, the layout registry and the atlas buffer. -/
def run_add_textures {σ : Type} (allocate : σ → IVec2 → Option IRect × σ) :
    List Image → DynamicTextureAtlasBuilder σ → List URect → Option Image →
    Except PanicKind (DynamicTextureAtlasBuilder σ × List URect × Option Image)
  | [], b, layout, textures => .ok (b, layout, textures)
  | texture :: rest, b, layout, textures =>
    match add_texture allocate b layout textures texture with
    | .error e => .error e
    | .ok r => run_add_textures allocate rest r.builder r.atlas_layout r.atlas_texture

/-- Two `URect`s overlap when their half-open ranges intersect on both
axes. -/
def urect_overlaps (a b : URect) : Prop :=
  a.min.x < b.max.x ∧ b.min.x < a.max.x ∧ a.min.y < b.max.y ∧ b.min.y < a.max.y

instance (a b : URect) : Decidable (urect_overlaps a b) := by
  unfold urect_overlaps; infer_instance

/-- Two allocator rectangles overlap when their half-open ranges intersect
on both axes. -/
def irect_overlaps (a b : IRect) : Prop :=
  a.min.x < b.max.x ∧ b.min.x < a.max.x ∧ a.min.y < b.max.y ∧ b.min.y < a.max.y

instance (a b : IRect) : Decidable (irect_overlaps a b) := by
  unfold irect_overlaps; infer_instance

/-- A placed rectangle lies within the canvas: coordinates non-negative,
corners ordered, max corner within the canvas extent (allocator contract). -/
def irect_in_canvas (r : IRect) (canvas : UVec2) : Prop :=
  0 ≤ r.min.x ∧ 0 ≤ r.min.y ∧ r.min.x ≤ r.max.x ∧ r.min.y ≤ r.max.y ∧
    r.max.x ≤ (canvas.x : Int) ∧ r.max.y ≤ (canvas.y : Int)

instance (r : IRect) (canvas : UVec2) : Decidable (irect_in_canvas r canvas) := by
  unfold irect_in_canvas; infer_instance

/-- A published rectangle lies within the canvas bounds. -/
def urect_in_canvas (r : URect) (canvas : UVec2) : Prop :=
  r.max.x ≤ canvas.x ∧ r.max.y ≤ canvas.y

instance (r : URect) (canvas : UVec2) : Decidable (urect_in_canvas r canvas) := by
  unfold urect_in_canvas; infer_instance

/-- The Atlas Allocator contract from the spec (§6): over a canvas fixed
at construction, every successful allocation returns a rectangle inside
the canvas that does not overlap any previously placed rectangle, and a
failed allocation places nothing.  `placed` is the (ghost) history of
rectangles handed out so far, newest first. -/
structure AllocatorContract {σ : Type} (allocate : σ → IVec2 → Option IRect × σ)
    (canvas : UVec2) (placed : σ → List IRect) : Prop where
  alloc_some : ∀ s sz r s', allocate s sz = (some r, s') →
    irect_in_canvas r canvas ∧ (∀ r' ∈ placed s, ¬ irect_overlaps r r') ∧
      placed s' = r :: placed s
  alloc_none : ∀ s sz s', allocate s sz = (none, s') → placed s' = placed s

/-- The Published Rectangle in the spec's words (§4.2 step 3): padding
subtracted from the max corner, saturating at the rectangle's own minimum
so the published max never falls below the published min. -/
def spec_published (r : URect) (padding : Nat) : URect :=
  ⟨r.min, ⟨max r.min.x (r.max.x - padding),
           max r.min.y (r.max.y - padding)⟩⟩

/-- The rectangle `add_texture` publishes for a placed allocation
rectangle: converted to unsigned coordinates, padding subtracted from the
max corner with `u32::saturating_sub` (`Nat` subtraction). -/
def published_of (r : IRect) (padding : Nat) : URect :=
  ⟨⟨r.min.x.toNat, r.min.y.toNat⟩,
   ⟨r.max.x.toNat - padding, r.max.y.toNat - padding⟩⟩

/-! ### Helper lemmas on the byte-buffer operations -/

theorem writeRow_length (dst src : List Nat) (dOff sOff len : Nat) :
    (writeRow dst src dOff sOff len).length = dst.length := by
  unfold writeRow
  rw [List.length_map, List.length_range]

theorem byteAt_writeRow (dst src : List Nat) (dOff sOff len i : Nat) :
    byteAt (writeRow dst src dOff sOff len) i =
      if dOff ≤ i ∧ i < dOff + len ∧ i < dst.length then
        byteAt src (sOff + (i - dOff))
      else byteAt dst i := by
  by_cases hi : i < dst.length
  · unfold byteAt writeRow
    rw [List.getD_eq_getElem?_getD, List.getElem?_map, List.getElem?_range hi]
    by_cases hc : dOff ≤ i ∧ i < dOff + len
    · simp [hc, hi, byteAt, List.getD_eq_getElem?_getD]
    · simp [hc, hi, byteAt, List.getD_eq_getElem?_getD]
  · have hcond : ¬ (dOff ≤ i ∧ i < dOff + len ∧ i < dst.length) := by
      intro h; exact hi h.2.2
    rw [if_neg hcond]
    unfold byteAt
    rw [List.getD_eq_getElem?_getD, List.getD_eq_getElem?_getD,
      List.getElem?_eq_none (l := writeRow dst src dOff sOff len)
        (by rw [writeRow_length]; omega),
      List.getElem?_eq_none (l := dst) (Nat.le_of_not_lt hi)]

theorem copyRows_length (dst src : List Nat) (W mX mY wd f n : Nat) :
    (copyRows dst src W mX mY wd f n).length = dst.length := by
  induction n with
  | zero => rfl
  | succ n ih =>
    unfold copyRows
    rw [writeRow_length, ih]

/-- Rows of the copy loop occupy increasing, disjoint byte ranges as long
as the row fits in the atlas width (`mX + wd ≤ W`). -/
theorem rowOff_next (W mX mY wd f k n : Nat) (hk : k < n) (hW : mX + wd ≤ W) :
    ((mY + k) * W + mX) * f + wd * f ≤ ((mY + n) * W + mX) * f := by
  have h1 : ((mY + k) * W + mX) * f + wd * f = ((mY + k) * W + (mX + wd)) * f := by
    ring
  have h2 : ((mY + k) * W + (mX + wd)) * f ≤ ((mY + k) * W + W) * f :=
    mul_le_mul_right' (Nat.add_le_add_left hW _) f
  have h3 : ((mY + k) * W + W) * f = ((mY + k + 1) * W) * f := by ring
  have h4 : ((mY + k + 1) * W) * f ≤ ((mY + n) * W) * f :=
    mul_le_mul_right' (mul_le_mul_right' (by omega) W) f
  have h5 : ((mY + n) * W) * f ≤ ((mY + n) * W + mX) * f :=
    mul_le_mul_right' (Nat.le_add_right _ _) f
  omega

/-- A byte index that no row range of the loop covers is unchanged. -/
theorem byteAt_copyRows_out (dst src : List Nat) (W mX mY wd f n i : Nat)
    (h : ∀ k, k < n →
      ¬ (((mY + k) * W + mX) * f ≤ i ∧ i < ((mY + k) * W + mX) * f + wd * f)) :
    byteAt (copyRows dst src W mX mY wd f n) i = byteAt dst i := by
  induction n with
  | zero => rfl
  | succ n ih =>
    unfold copyRows
    rw [byteAt_writeRow, copyRows_length]
    have hn := h n (Nat.lt_succ_self n)
    rw [if_neg (by intro hc; exact hn ⟨hc.1, hc.2.1⟩)]
    exact ih (fun k hk => h k (Nat.lt_succ_of_lt hk))

/-- Byte `j` of row `k` of the destination holds byte `j` of row `k` of
the source after the loop has processed row `k`. -/
theorem byteAt_copyRows_in (dst src : List Nat) (W mX mY wd f n k j : Nat)
    (hk : k < n) (hj : j < wd * f) (hW : mX + wd ≤ W)
    (hlen : ∀ m, m < n → ((mY + m) * W + mX) * f + wd * f ≤ dst.length) :
    byteAt (copyRows dst src W mX mY wd f n) (((mY + k) * W + mX) * f + j)
      = byteAt src (k * (wd * f) + j) := by
  induction n with
  | zero => omega
  | succ n ih =>
    unfold copyRows
    rw [byteAt_writeRow, copyRows_length]
    by_cases hkn : k = n
    · subst hkn
      have hbound := hlen k (Nat.lt_succ_self k)
      rw [if_pos ⟨Nat.le_add_right _ _, by omega, by omega⟩]
      congr 1
      omega
    · have hkn' : k < n := by omega
      have hlt : ((mY + k) * W + mX) * f + j < ((mY + n) * W + mX) * f :=
        lt_of_lt_of_le (by omega) (rowOff_next W mX mY wd f k n hkn' hW)
      rw [if_neg (by intro hc; omega)]
      exact ih hkn' (fun m hm => hlen m (Nat.lt_succ_of_lt hm))

/-- A byte of pixel `(x, y)` lies in the `y`-th block of `W * f` bytes. -/
theorem index_in_block (y x c W f : Nat) (hx : x < W) (hc : c < f) :
    y * (W * f) ≤ (y * W + x) * f + c ∧ (y * W + x) * f + c < (y + 1) * (W * f) := by
  constructor
  · calc y * (W * f) = (y * W) * f := by ring
      _ ≤ (y * W + x) * f := mul_le_mul_right' (Nat.le_add_right _ _) f
      _ ≤ (y * W + x) * f + c := Nat.le_add_right _ _
  · have h1 : (y * W + x + 1) * f = (y * W + x) * f + f := by ring
    have h2 : (y * W + x + 1) * f ≤ (y * W + W) * f :=
      mul_le_mul_right' (by omega) f
    have h3 : (y * W + W) * f = (y + 1) * (W * f) := by ring
    omega

/-- Distinct blocks of `Wf` bytes are disjoint. -/
theorem block_inj (y z Wf i : Nat) (h1 : y * Wf ≤ i) (h2 : i < (y + 1) * Wf)
    (h3 : z * Wf ≤ i) (h4 : i < (z + 1) * Wf) : y = z := by
  rcases Nat.lt_trichotomy y z with h | h | h
  · exfalso
    have h5 : (y + 1) * Wf ≤ z * Wf := mul_le_mul_right' (by omega) Wf
    omega
  · exact h
  · exfalso
    have h5 : (z + 1) * Wf ≤ y * Wf := mul_le_mul_right' (by omega) Wf
    omega

/-- A byte of a pixel `(x, y)` outside the copy target region is covered
by no row range of the loop. -/
theorem outside_not_in_row (W f mX mY wd h y x c k : Nat)
    (hW : mX + wd ≤ W) (hx : x < W) (hc : c < f) (hk : k < h)
    (hout : y < mY ∨ mY + h ≤ y ∨ x < mX ∨ mX + wd ≤ x) :
    ¬ (((mY + k) * W + mX) * f ≤ (y * W + x) * f + c ∧
       (y * W + x) * f + c < ((mY + k) * W + mX) * f + wd * f) := by
  rintro ⟨hlo, hhi⟩
  have hi := index_in_block y x c W f hx hc
  have hrow_lo : (mY + k) * (W * f) ≤ (y * W + x) * f + c := by
    calc (mY + k) * (W * f) = ((mY + k) * W) * f := by ring
      _ ≤ ((mY + k) * W + mX) * f := mul_le_mul_right' (Nat.le_add_right _ _) f
      _ ≤ _ := hlo
  have hrow_hi : (y * W + x) * f + c < ((mY + k) + 1) * (W * f) := by
    have h1 : ((mY + k) * W + mX) * f + wd * f = ((mY + k) * W + (mX + wd)) * f := by
      ring
    have h2 : ((mY + k) * W + (mX + wd)) * f ≤ ((mY + k) * W + W) * f :=
      mul_le_mul_right' (by omega) f
    have h3 : ((mY + k) * W + W) * f = ((mY + k) + 1) * (W * f) := by ring
    omega
  have hy : y = mY + k := block_inj y (mY + k) (W * f) _ hi.1 hi.2 hrow_lo hrow_hi
  subst hy
  have hexp1 : ((mY + k) * W + mX) * f = (mY + k) * W * f + mX * f := by ring
  have hexp2 : ((mY + k) * W + x) * f + c = (mY + k) * W * f + (x * f + c) := by ring
  have hx_lo : mX ≤ x := by
    by_contra hxm
    have h6 : (x + 1) * f ≤ mX * f := mul_le_mul_right' (by omega) f
    have h7 : (x + 1) * f = x * f + f := by ring
    omega
  have hx_hi : x < mX + wd := by
    by_contra hxm
    have h6 : (mX + wd) * f ≤ x * f := mul_le_mul_right' (by omega) f
    have hexp3 : ((mY + k) * W + mX) * f + wd * f
        = (mY + k) * W * f + (mX + wd) * f := by ring
    omega
  omega

/-! ### Claim theorems: construction and failure paths -/

/-- Claim C5: when the requested padded cell size (computed with `u32`
arithmetic) cannot be represented in the allocator's `i32` coordinate
domain, `add_texture` returns `None` without panicking and with no side
effect: the builder (allocator included), the layout registry and the
image store are returned unchanged — the allocator is never consulted. -/
theorem add_texture_unrepresentable_returns_none {σ : Type}
    (allocate : σ → IVec2 → Option IRect × σ) (b : DynamicTextureAtlasBuilder σ)
    (atlas_layout : List URect) (textures : Option Image) (texture : Image)
    (h : to_size2 ⟨(texture.width + b.padding) % U32_MOD,
                   (texture.height + b.padding) % U32_MOD⟩ = none) :
    add_texture allocate b atlas_layout textures texture
      = .ok ⟨none, b, atlas_layout, textures⟩ := by
  unfold add_texture
  rw [h]

theorem add_texture_unrepresentable_returns_none_witness :
    to_size2 ⟨(2147483648 + 0) % U32_MOD, (1 + 0) % U32_MOD⟩ = none ∧
    add_texture (σ := Unit) (fun s _ => (none, s)) ⟨(), 0⟩ [] none
        ⟨2147483648, 1, 1, [], true⟩ = .ok ⟨none, ⟨(), 0⟩, [], none⟩ :=
  ⟨by decide,
   add_texture_unrepresentable_returns_none (fun s _ => (none, s)) ⟨(), 0⟩ []
     none ⟨2147483648, 1, 1, [], true⟩ (by decide)⟩

/-- Claim C2: when the allocator reports no space for the requested padded
size, `add_texture` returns `None` and the failure is atomic: the atlas
buffer (image-store entry), the layout registry and the builder — its
allocator state included — are exactly as before the call.  The allocator
contract (spec §7: a failed allocation leaves the allocator untouched) is
the `hfail` hypothesis. -/
theorem add_texture_alloc_fail_atomic {σ : Type}
    (allocate : σ → IVec2 → Option IRect × σ) (b : DynamicTextureAtlasBuilder σ)
    (atlas_layout : List URect) (textures : Option Image) (texture : Image)
    (sz : IVec2)
    (hsz : to_size2 ⟨(texture.width + b.padding) % U32_MOD,
                     (texture.height + b.padding) % U32_MOD⟩ = some sz)
    (hfail : allocate b.atlas_allocator sz = (none, b.atlas_allocator)) :
    add_texture allocate b atlas_layout textures texture
      = .ok ⟨none, b, atlas_layout, textures⟩ := by
  unfold add_texture
  rw [hsz]
  simp only [hfail]

theorem add_texture_alloc_fail_atomic_witness :
    to_size2 ⟨(5 + 1) % U32_MOD, (7 + 1) % U32_MOD⟩ = some ⟨6, 8⟩ ∧
    add_texture (σ := Nat) (fun s _ => (none, s)) ⟨3, 1⟩ [⟨⟨0, 0⟩, ⟨2, 2⟩⟩]
        (some ⟨16, 16, 4, [], true⟩) ⟨5, 7, 4, [], true⟩
      = .ok ⟨none, ⟨3, 1⟩, [⟨⟨0, 0⟩, ⟨2, 2⟩⟩], some ⟨16, 16, 4, [], true⟩⟩ :=
  ⟨by decide,
   add_texture_alloc_fail_atomic (fun s _ => (none, s)) ⟨3, 1⟩ [⟨⟨0, 0⟩, ⟨2, 2⟩⟩]
     (some ⟨16, 16, 4, [], true⟩) ⟨5, 7, 4, [], true⟩ ⟨6, 8⟩ (by decide) rfl⟩

/-- Claim C7: once the allocation has succeeded, a missing atlas asset or
one without the `MAIN_WORLD` usage flag aborts `add_texture` with an
assertion-style panic (`expect` / `assert!`), not with `None` or an
ordinary error. -/
theorem add_texture_bad_atlas_panics {σ : Type}
    (allocate : σ → IVec2 → Option IRect × σ) (b : DynamicTextureAtlasBuilder σ)
    (atlas_layout : List URect) (textures : Option Image) (texture : Image)
    (sz : IVec2) (r : IRect) (s' : σ)
    (hsz : to_size2 ⟨(texture.width + b.padding) % U32_MOD,
                     (texture.height + b.padding) % U32_MOD⟩ = some sz)
    (halloc : allocate b.atlas_allocator sz = (some r, s')) :
    (textures = none →
      add_texture allocate b atlas_layout textures texture
        = .error .missingAtlasAsset) ∧
    (∀ img, textures = some img → img.main_world = false →
      add_texture allocate b atlas_layout textures texture
        = .error .usageNotMainWorld) := by
  constructor
  · rintro rfl
    unfold add_texture
    rw [hsz]
    simp only [halloc]
  · rintro img rfl hmw
    unfold add_texture
    rw [hsz]
    simp only [halloc, hmw]
    rfl

theorem add_texture_bad_atlas_panics_witness :
    to_size2 ⟨(1 + 0) % U32_MOD, (1 + 0) % U32_MOD⟩ = some ⟨1, 1⟩ ∧
    add_texture (σ := Unit) (fun s _ => (some ⟨⟨0, 0⟩, ⟨1, 1⟩⟩, s)) ⟨(), 0⟩ []
        none ⟨1, 1, 1, [255], true⟩ = .error .missingAtlasAsset :=
  ⟨by decide,
   (add_texture_bad_atlas_panics (fun s _ => (some ⟨⟨0, 0⟩, ⟨1, 1⟩⟩, s)) ⟨(), 0⟩
     [] none ⟨1, 1, 1, [255], true⟩ ⟨1, 1⟩ ⟨⟨0, 0⟩, ⟨1, 1⟩⟩ () (by decide) rfl).1 rfl⟩

/-- Claim C8: `new` fails fatally (panics) exactly when the canvas size
does not fit the allocator's `i32` coordinate domain; on success it does
nothing but initialize the allocator with that size (the atlas buffer is
not an input, so it is untouched by construction). -/
theorem new_panics_iff_unrepresentable {σ : Type} (mkAllocator : IVec2 → σ)
    (size : UVec2) (padding : Nat) :
    ((∃ e, DynamicTextureAtlasBuilder.new mkAllocator size padding = .error e)
        ↔ to_size2 size = none) ∧
    (∀ s, to_size2 size = some s →
      DynamicTextureAtlasBuilder.new mkAllocator size padding
        = .ok ⟨mkAllocator s, padding⟩) := by
  constructor
  · constructor
    · rintro ⟨e, he⟩
      cases hs : to_size2 size with
      | none => rfl
      | some s =>
        unfold DynamicTextureAtlasBuilder.new at he
        rw [hs] at he
        exact Except.noConfusion he
    · intro h
      refine ⟨.invalidAtlasSize, ?_⟩
      unfold DynamicTextureAtlasBuilder.new
      rw [h]
  · intro s hs
    unfold DynamicTextureAtlasBuilder.new
    rw [hs]

theorem new_panics_iff_unrepresentable_witness :
    to_size2 ⟨16, 16⟩ = some ⟨16, 16⟩ ∧
    DynamicTextureAtlasBuilder.new (σ := IVec2) (fun s => s) ⟨16, 16⟩ 2
      = .ok ⟨⟨16, 16⟩, 2⟩ :=
  ⟨by decide,
   (new_panics_iff_unrepresentable (fun s => s) ⟨16, 16⟩ 2).2 ⟨16, 16⟩ (by decide)⟩

/-- Claim C10: the image store is only consulted after a successful
allocation: when the requested size is non-representable or the allocator
reports no space, `add_texture` returns `None` for every image-store
lookup result — even a missing handle or a buffer without the
`MAIN_WORLD` flag — and leaves the registry and the store unchanged. -/
theorem add_texture_failure_ignores_image_store {σ : Type}
    (allocate : σ → IVec2 → Option IRect × σ) (b : DynamicTextureAtlasBuilder σ)
    (atlas_layout : List URect) (texture : Image)
    (h : to_size2 ⟨(texture.width + b.padding) % U32_MOD,
                   (texture.height + b.padding) % U32_MOD⟩ = none ∨
         ∃ sz s', to_size2 ⟨(texture.width + b.padding) % U32_MOD,
                     (texture.height + b.padding) % U32_MOD⟩ = some sz ∧
           allocate b.atlas_allocator sz = (none, s')) :
    ∃ b', ∀ textures, add_texture allocate b atlas_layout textures texture
        = .ok ⟨none, b', atlas_layout, textures⟩ := by
  rcases h with h | ⟨sz, s', hsz, hfail⟩
  · refine ⟨b, fun textures => ?_⟩
    unfold add_texture
    rw [h]
  · refine ⟨⟨s', b.padding⟩, fun textures => ?_⟩
    unfold add_texture
    rw [hsz]
    simp only [hfail]

theorem add_texture_failure_ignores_image_store_witness :
    ∃ b', ∀ textures,
      add_texture (σ := Unit) (fun s _ => (none, s)) ⟨(), 0⟩ [] textures
          ⟨1, 1, 1, [], false⟩
        = .ok ⟨none, b', [], textures⟩ :=
  add_texture_failure_ignores_image_store (fun s _ => (none, s)) ⟨(), 0⟩ []
    ⟨1, 1, 1, [], false⟩ (.inr ⟨⟨1, 1⟩, (), by decide, rfl⟩)

/-! ### Claim theorems: the published rectangle -/

theorem to_rect_of_nonneg (r : IRect) (h1 : 0 ≤ r.min.x) (h2 : 0 ≤ r.min.y)
    (h3 : 0 ≤ r.max.x) (h4 : 0 ≤ r.max.y) :
    to_rect r
      = some ⟨⟨r.min.x.toNat, r.min.y.toNat⟩, ⟨r.max.x.toNat, r.max.y.toNat⟩⟩ := by
  unfold to_rect i32_to_u32
  simp [h1, h2, h3, h4]

/-- Claim C4: on a successful `add_texture`, the rectangle appended to the
layout registry is the allocator's placed rectangle with the padding
subtracted from its max corner, and the subtraction saturates at the
rectangle's own minimum (the published max never drops below the published
min).  The hypotheses `hszx`/`hszy` are the allocator contract: the placed
rectangle is at least the requested padded size. -/
theorem add_texture_published_rect_saturates {σ : Type}
    (allocate : σ → IVec2 → Option IRect × σ) (b : DynamicTextureAtlasBuilder σ)
    (atlas_layout : List URect) (atlas : Image) (texture : Image)
    (r : IRect) (s' : σ)
    (hw : texture.width + b.padding ≤ I32_MAX)
    (hh : texture.height + b.padding ≤ I32_MAX)
    (halloc : allocate b.atlas_allocator
        ⟨((texture.width + b.padding : Nat) : Int),
         ((texture.height + b.padding : Nat) : Int)⟩ = (some r, s'))
    (husage : atlas.main_world = true)
    (hminx : 0 ≤ r.min.x) (hminy : 0 ≤ r.min.y)
    (hszx : r.min.x + ((texture.width + b.padding : Nat) : Int) ≤ r.max.x)
    (hszy : r.min.y + ((texture.height + b.padding : Nat) : Int) ≤ r.max.y) :
    ∃ pub : URect,
      add_texture allocate b atlas_layout (some atlas) texture
        = .ok ⟨some atlas_layout.length, ⟨s', b.padding⟩,
               atlas_layout ++ [pub],
               some (place_texture atlas r texture b.padding)⟩ ∧
      pub = spec_published
        ⟨⟨r.min.x.toNat, r.min.y.toNat⟩, ⟨r.max.x.toNat, r.max.y.toNat⟩⟩
        b.padding ∧
      pub.min.x ≤ pub.max.x ∧ pub.min.y ≤ pub.max.y := by
  have hmw : (texture.width + b.padding) % U32_MOD = texture.width + b.padding :=
    Nat.mod_eq_of_lt (by unfold I32_MAX at hw; unfold U32_MOD; omega)
  have hmh : (texture.height + b.padding) % U32_MOD = texture.height + b.padding :=
    Nat.mod_eq_of_lt (by unfold I32_MAX at hh; unfold U32_MOD; omega)
  have hsz : to_size2 ⟨(texture.width + b.padding) % U32_MOD,
                       (texture.height + b.padding) % U32_MOD⟩
      = some ⟨((texture.width + b.padding : Nat) : Int),
              ((texture.height + b.padding : Nat) : Int)⟩ := by
    unfold to_size2 u32_to_i32
    rw [hmw, hmh]
    simp [hw, hh]
  have htr := to_rect_of_nonneg r hminx hminy (by omega) (by omega)
  refine ⟨⟨⟨r.min.x.toNat, r.min.y.toNat⟩,
           ⟨r.max.x.toNat - b.padding, r.max.y.toNat - b.padding⟩⟩, ?_, ?_, ?_, ?_⟩
  · unfold add_texture
    rw [hsz]
    simp only [halloc, husage, htr, layout_add_texture, if_true]
  · unfold spec_published
    dsimp only
    have hx : max r.min.x.toNat (r.max.x.toNat - b.padding)
        = r.max.x.toNat - b.padding := by omega
    have hy : max r.min.y.toNat (r.max.y.toNat - b.padding)
        = r.max.y.toNat - b.padding := by omega
    rw [hx, hy]
  · dsimp only
    omega
  · dsimp only
    omega

theorem add_texture_published_rect_saturates_witness :
    ((fun (s : Unit) (_ : IVec2) => ((some ⟨⟨0, 0⟩, ⟨4, 4⟩⟩ : Option IRect), s))
        () ⟨(4 : Int), (4 : Int)⟩ = (some ⟨⟨0, 0⟩, ⟨4, 4⟩⟩, ())) ∧
    ∃ pub : URect,
      add_texture (σ := Unit) (fun s _ => (some ⟨⟨0, 0⟩, ⟨4, 4⟩⟩, s)) ⟨(), 1⟩ []
          (some ⟨8, 8, 1, List.replicate 64 0, true⟩) ⟨3, 3, 1, List.replicate 9 7, true⟩
        = .ok ⟨some 0, ⟨(), 1⟩, [] ++ [pub],
               some (place_texture ⟨8, 8, 1, List.replicate 64 0, true⟩
                 ⟨⟨0, 0⟩, ⟨4, 4⟩⟩ ⟨3, 3, 1, List.replicate 9 7, true⟩ 1)⟩ ∧
      pub = spec_published ⟨⟨0, 0⟩, ⟨4, 4⟩⟩ 1 ∧
      pub.min.x ≤ pub.max.x ∧ pub.min.y ≤ pub.max.y :=
  ⟨rfl,
   add_texture_published_rect_saturates (fun s _ => (some ⟨⟨0, 0⟩, ⟨4, 4⟩⟩, s))
     ⟨(), 1⟩ [] ⟨8, 8, 1, List.replicate 64 0, true⟩ ⟨3, 3, 1, List.replicate 9 7, true⟩
     ⟨⟨0, 0⟩, ⟨4, 4⟩⟩ () (by decide) (by decide) rfl rfl (by decide) (by decide)
     (by decide) (by decide)⟩

/-- Claim C9: when the allocator returns a rectangle of exactly the
requested padded size, the published rectangle has exactly the source
image's width and height, whatever the padding. -/
theorem add_texture_published_size_exact {σ : Type}
    (allocate : σ → IVec2 → Option IRect × σ) (b : DynamicTextureAtlasBuilder σ)
    (atlas_layout : List URect) (atlas : Image) (texture : Image)
    (r : IRect) (s' : σ)
    (hw : texture.width + b.padding ≤ I32_MAX)
    (hh : texture.height + b.padding ≤ I32_MAX)
    (halloc : allocate b.atlas_allocator
        ⟨((texture.width + b.padding : Nat) : Int),
         ((texture.height + b.padding : Nat) : Int)⟩ = (some r, s'))
    (husage : atlas.main_world = true)
    (hminx : 0 ≤ r.min.x) (hminy : 0 ≤ r.min.y)
    (hszx : r.max.x = r.min.x + ((texture.width + b.padding : Nat) : Int))
    (hszy : r.max.y = r.min.y + ((texture.height + b.padding : Nat) : Int)) :
    ∃ (pub : URect) (img' : Image),
      add_texture allocate b atlas_layout (some atlas) texture
        = .ok ⟨some atlas_layout.length, ⟨s', b.padding⟩,
               atlas_layout ++ [pub], some img'⟩ ∧
      pub.width = texture.width ∧ pub.height = texture.height := by
  have hmw : (texture.width + b.padding) % U32_MOD = texture.width + b.padding :=
    Nat.mod_eq_of_lt (by unfold I32_MAX at hw; unfold U32_MOD; omega)
  have hmh : (texture.height + b.padding) % U32_MOD = texture.height + b.padding :=
    Nat.mod_eq_of_lt (by unfold I32_MAX at hh; unfold U32_MOD; omega)
  have hsz : to_size2 ⟨(texture.width + b.padding) % U32_MOD,
                       (texture.height + b.padding) % U32_MOD⟩
      = some ⟨((texture.width + b.padding : Nat) : Int),
              ((texture.height + b.padding : Nat) : Int)⟩ := by
    unfold to_size2 u32_to_i32
    rw [hmw, hmh]
    simp [hw, hh]
  have htr := to_rect_of_nonneg r hminx hminy (by omega) (by omega)
  refine ⟨⟨⟨r.min.x.toNat, r.min.y.toNat⟩,
           ⟨r.max.x.toNat - b.padding, r.max.y.toNat - b.padding⟩⟩,
          place_texture atlas r texture b.padding, ?_, ?_, ?_⟩
  · unfold add_texture
    rw [hsz]
    simp only [halloc, husage, htr, layout_add_texture, if_true]
  · unfold URect.width
    dsimp only
    omega
  · unfold URect.height
    dsimp only
    omega

theorem add_texture_published_size_exact_witness :
    ((fun (s : Unit) (_ : IVec2) => ((some ⟨⟨2, 2⟩, ⟨7, 6⟩⟩ : Option IRect), s))
        () ⟨(5 : Int), (4 : Int)⟩ = (some ⟨⟨2, 2⟩, ⟨7, 6⟩⟩, ())) ∧
    ∃ (pub : URect) (img' : Image),
      add_texture (σ := Unit) (fun s _ => (some ⟨⟨2, 2⟩, ⟨7, 6⟩⟩, s)) ⟨(), 2⟩ []
          (some ⟨16, 16, 1, List.replicate 256 0, true⟩)
          ⟨3, 2, 1, List.replicate 6 9, true⟩
        = .ok ⟨some 0, ⟨(), 2⟩, [] ++ [pub], some img'⟩ ∧
      pub.width = 3 ∧ pub.height = 2 :=
  ⟨rfl,
   add_texture_published_size_exact (fun s _ => (some ⟨⟨2, 2⟩, ⟨7, 6⟩⟩, s))
     ⟨(), 2⟩ [] ⟨16, 16, 1, List.replicate 256 0, true⟩
     ⟨3, 2, 1, List.replicate 6 9, true⟩ ⟨⟨2, 2⟩, ⟨7, 6⟩⟩ () (by decide) (by decide)
     rfl rfl (by decide) (by decide) (by decide) (by decide)⟩

/-! ### Claim theorems: the pixel copy -/

/-- Claim C1: for a successful allocation whose padding-trimmed rectangle
has min corner `(minX, minY)` and size `(w, h)`, `place_texture` writes,
for each destination row `y = minY + r` (`r < h`), exactly
`w * pixel_size` bytes at destination offset
`(y * atlas_width + minX) * pixel_size`, taken from source offset
`r * w * pixel_size`: afterwards every destination row equals the
corresponding source row byte for byte.  `hW`, `hdst` and `hsrc` are the
bounds under which the source's slice copies do not panic. -/
theorem place_texture_copies_rows
    (atlas texture : Image) (allocation : IRect) (padding : Nat)
    (minX minY w h : Nat)
    (hmin : allocation.min = ⟨(minX : Int), (minY : Int)⟩)
    (hmax : allocation.max = ⟨((minX + w + padding : Nat) : Int),
                              ((minY + h + padding : Nat) : Int)⟩)
    (hW : minX + w ≤ atlas.width)
    (hdst : ∀ k, k < h →
      ((minY + k) * atlas.width + minX) * atlas.pixel_size
          + w * atlas.pixel_size ≤ atlas.data.length)
    (_hsrc : h * (w * atlas.pixel_size) ≤ texture.data.length)
    (r j : Nat) (hr : r < h) (hj : j < w * atlas.pixel_size) :
    byteAt (place_texture atlas allocation texture padding).data
        (((minY + r) * atlas.width + minX) * atlas.pixel_size + j)
      = byteAt texture.data (r * (w * atlas.pixel_size) + j) := by
  have hdata : (place_texture atlas allocation texture padding).data
      = copyRows atlas.data texture.data atlas.width allocation.min.x.toNat
          allocation.min.y.toNat
          ((allocation.max.x - (padding : Int)) - allocation.min.x).toNat
          atlas.pixel_size
          ((allocation.max.y - (padding : Int)) - allocation.min.y).toNat := rfl
  have hminx : allocation.min.x.toNat = minX := by rw [hmin]; simp
  have hminy : allocation.min.y.toNat = minY := by rw [hmin]; simp
  have hrw : ((allocation.max.x - (padding : Int)) - allocation.min.x).toNat = w := by
    rw [hmin, hmax]
    dsimp only
    omega
  have hrh : ((allocation.max.y - (padding : Int)) - allocation.min.y).toNat = h := by
    rw [hmin, hmax]
    dsimp only
    omega
  rw [hdata, hminx, hminy, hrw, hrh]
  exact byteAt_copyRows_in atlas.data texture.data atlas.width minX minY w
    atlas.pixel_size h r j hr hj hW hdst

theorem place_texture_copies_rows_witness :
    (1 + 2 ≤ 4 ∧ 1 * (2 * 1) + 1 < 2 * (2 * 1)) ∧
    byteAt (place_texture ⟨4, 4, 1, List.replicate 16 0, true⟩
        ⟨⟨1, 1⟩, ⟨3, 3⟩⟩ ⟨2, 2, 1, [10, 20, 30, 40], true⟩ 0).data
        (((1 + 1) * 4 + 1) * 1 + 1)
      = byteAt [10, 20, 30, 40] (1 * (2 * 1) + 1) :=
  ⟨by decide,
   place_texture_copies_rows ⟨4, 4, 1, List.replicate 16 0, true⟩
     ⟨2, 2, 1, [10, 20, 30, 40], true⟩ ⟨⟨1, 1⟩, ⟨3, 3⟩⟩ 0 1 1 2 2 (by decide)
     (by decide) (by decide) (by decide) (by decide) 1 1 (by decide) (by decide)⟩

/-- Claim C3: `place_texture` never writes outside the padding-trimmed
destination rows and columns: every byte of a pixel `(x, y)` with `y`
outside `[minY, minY + h)` or `x` outside `[minX, minX + w)` — in
particular every byte of the reserved padding rows and columns of the
allocated cell — is left unmodified, and the buffer length is unchanged. -/
theorem place_texture_outside_unchanged
    (atlas texture : Image) (allocation : IRect) (padding : Nat)
    (minX minY w h : Nat)
    (hmin : allocation.min = ⟨(minX : Int), (minY : Int)⟩)
    (hmax : allocation.max = ⟨((minX + w + padding : Nat) : Int),
                              ((minY + h + padding : Nat) : Int)⟩)
    (hW : minX + w ≤ atlas.width)
    (x y c : Nat) (hx : x < atlas.width) (hc : c < atlas.pixel_size)
    (hout : y < minY ∨ minY + h ≤ y ∨ x < minX ∨ minX + w ≤ x) :
    (place_texture atlas allocation texture padding).data.length
        = atlas.data.length ∧
    byteAt (place_texture atlas allocation texture padding).data
        ((y * atlas.width + x) * atlas.pixel_size + c)
      = byteAt atlas.data ((y * atlas.width + x) * atlas.pixel_size + c) := by
  have hdata : (place_texture atlas allocation texture padding).data
      = copyRows atlas.data texture.data atlas.width allocation.min.x.toNat
          allocation.min.y.toNat
          ((allocation.max.x - (padding : Int)) - allocation.min.x).toNat
          atlas.pixel_size
          ((allocation.max.y - (padding : Int)) - allocation.min.y).toNat := rfl
  have hminx : allocation.min.x.toNat = minX := by rw [hmin]; simp
  have hminy : allocation.min.y.toNat = minY := by rw [hmin]; simp
  have hrw : ((allocation.max.x - (padding : Int)) - allocation.min.x).toNat = w := by
    rw [hmin, hmax]
    dsimp only
    omega
  have hrh : ((allocation.max.y - (padding : Int)) - allocation.min.y).toNat = h := by
    rw [hmin, hmax]
    dsimp only
    omega
  rw [hdata, hminx, hminy, hrw, hrh]
  refine ⟨copyRows_length _ _ _ _ _ _ _ _, ?_⟩
  exact byteAt_copyRows_out atlas.data texture.data atlas.width minX minY w
    atlas.pixel_size h ((y * atlas.width + x) * atlas.pixel_size + c)
    (fun k hk => outside_not_in_row atlas.width atlas.pixel_size minX minY w h
      y x c k hW hx hc hk hout)

theorem place_texture_outside_unchanged_witness :
    (0 < 1 ∧ (3 : Nat) < 4) ∧
    ((place_texture ⟨4, 4, 1, List.replicate 16 0, true⟩ ⟨⟨1, 1⟩, ⟨3, 3⟩⟩
        ⟨2, 2, 1, [10, 20, 30, 40], true⟩ 0).data.length
      = (List.replicate 16 (0 : Nat)).length ∧
    byteAt (place_texture ⟨4, 4, 1, List.replicate 16 0, true⟩ ⟨⟨1, 1⟩, ⟨3, 3⟩⟩
        ⟨2, 2, 1, [10, 20, 30, 40], true⟩ 0).data ((3 * 4 + 2) * 1 + 0)
      = byteAt (List.replicate 16 0) ((3 * 4 + 2) * 1 + 0)) :=
  ⟨by decide,
   place_texture_outside_unchanged ⟨4, 4, 1, List.replicate 16 0, true⟩
     ⟨2, 2, 1, [10, 20, 30, 40], true⟩ ⟨⟨1, 1⟩, ⟨3, 3⟩⟩ 0 1 1 2 2 (by decide)
     (by decide) (by decide) 2 3 0 (by decide) (by decide) (by decide)⟩

/-! ### Claim theorems: sequences of calls (allocator contract) -/

theorem irect_overlaps_symm (a c : IRect) (h : irect_overlaps a c) :
    irect_overlaps c a := by
  obtain ⟨h1, h2, h3, h4⟩ := h
  exact ⟨h2, h1, h4, h3⟩

theorem published_of_in_canvas (r : IRect) (canvas : UVec2) (p : Nat)
    (h : irect_in_canvas r canvas) : urect_in_canvas (published_of r p) canvas := by
  obtain ⟨h1, h2, h3, h4, h5, h6⟩ := h
  unfold published_of urect_in_canvas
  dsimp only
  omega

theorem published_of_overlaps_mono (a c : IRect) (p : Nat)
    (ha1 : 0 ≤ a.min.x) (ha2 : 0 ≤ a.min.y)
    (hc1 : 0 ≤ c.min.x) (hc2 : 0 ≤ c.min.y)
    (h : urect_overlaps (published_of a p) (published_of c p)) :
    irect_overlaps a c := by
  obtain ⟨o1, o2, o3, o4⟩ := h
  unfold published_of at o1 o2 o3 o4
  dsimp only at o1 o2 o3 o4
  exact ⟨by omega, by omega, by omega, by omega⟩

/-- One `add_texture` call preserves the registry invariant: the layout is
the image (under publication) of a pairwise non-overlapping, in-canvas
list of placed rectangles all recorded in the allocator's history. -/
theorem add_texture_step_inv {σ : Type} (allocate : σ → IVec2 → Option IRect × σ)
    (canvas : UVec2) (placed : σ → List IRect)
    (hc : AllocatorContract allocate canvas placed)
    (b : DynamicTextureAtlasBuilder σ) (layout : List URect)
    (textures : Option Image) (texture : Image) (res : AddTextureResult σ)
    (hstep : add_texture allocate b layout textures texture = .ok res)
    (ps : List IRect)
    (hlay : layout = ps.map (fun r => published_of r b.padding))
    (hpair : ps.Pairwise fun a c => ¬ irect_overlaps a c)
    (hcanvas : ∀ r ∈ ps, irect_in_canvas r canvas)
    (hmem : ∀ r ∈ ps, r ∈ placed b.atlas_allocator) :
    ∃ ps' : List IRect, res.builder.padding = b.padding ∧
      res.atlas_layout = ps'.map (fun r => published_of r b.padding) ∧
      ps'.Pairwise (fun a c => ¬ irect_overlaps a c) ∧
      (∀ r ∈ ps', irect_in_canvas r canvas) ∧
      (∀ r ∈ ps', r ∈ placed res.builder.atlas_allocator) := by
  unfold add_texture at hstep
  cases hsz : to_size2 ⟨(texture.width + b.padding) % U32_MOD,
                        (texture.height + b.padding) % U32_MOD⟩ with
  | none =>
    simp only [hsz] at hstep
    cases hstep
    exact ⟨ps, rfl, hlay, hpair, hcanvas, hmem⟩
  | some sz =>
    simp only [hsz] at hstep
    rcases halc : allocate b.atlas_allocator sz with ⟨alo, s₂⟩
    cases alo with
    | none =>
      simp only [halc] at hstep
      cases hstep
      have hps := hc.alloc_none _ _ _ halc
      refine ⟨ps, rfl, hlay, hpair, hcanvas, ?_⟩
      intro r hr
      dsimp only
      rw [hps]
      exact hmem r hr
    | some allocation =>
      simp only [halc] at hstep
      cases textures with
      | none => exact Except.noConfusion hstep
      | some atlas_texture =>
        obtain ⟨hcv, hnov, hplaced⟩ := hc.alloc_some _ _ _ _ halc
        obtain ⟨hn1, hn2, hle1, hle2, hub1, hub2⟩ := hcv
        have htr := to_rect_of_nonneg allocation hn1 hn2 (by omega) (by omega)
        cases hmw : atlas_texture.main_world with
        | false =>
          simp only [hmw, Bool.false_eq_true, if_false] at hstep
          exact Except.noConfusion hstep
        | true =>
          simp only [hmw, if_true, htr, layout_add_texture] at hstep
          cases hstep
          refine ⟨ps ++ [allocation], rfl, ?_, ?_, ?_, ?_⟩
          · dsimp only
            rw [hlay, List.map_append]
            rfl
          · refine List.pairwise_append.mpr ⟨hpair, List.pairwise_singleton _ _, ?_⟩
            intro a ha q hq
            rw [List.mem_singleton] at hq
            subst hq
            intro hov
            exact hnov a (hmem a ha) (irect_overlaps_symm _ _ hov)
          · intro r hr
            rcases List.mem_append.mp hr with hr | hr
            · exact hcanvas r hr
            · rw [List.mem_singleton] at hr
              subst hr
              exact ⟨hn1, hn2, hle1, hle2, hub1, hub2⟩
          · intro r hr
            dsimp only
            rw [hplaced]
            rcases List.mem_append.mp hr with hr | hr
            · exact List.mem_cons_of_mem _ (hmem r hr)
            · rw [List.mem_singleton] at hr
              subst hr
              exact List.mem_cons_self _ _

/-- The registry invariant holds along every non-panicking run of
`add_texture` calls. -/
theorem run_add_textures_inv {σ : Type} (allocate : σ → IVec2 → Option IRect × σ)
    (canvas : UVec2) (placed : σ → List IRect)
    (hc : AllocatorContract allocate canvas placed) (texs : List Image) :
    ∀ (b : DynamicTextureAtlasBuilder σ) (layout : List URect)
      (textures : Option Image) (ps : List IRect)
      (out : DynamicTextureAtlasBuilder σ × List URect × Option Image),
      layout = ps.map (fun r => published_of r b.padding) →
      ps.Pairwise (fun a c => ¬ irect_overlaps a c) →
      (∀ r ∈ ps, irect_in_canvas r canvas) →
      (∀ r ∈ ps, r ∈ placed b.atlas_allocator) →
      run_add_textures allocate texs b layout textures = .ok out →
      ∃ ps' : List IRect,
        out.2.1 = ps'.map (fun r => published_of r out.1.padding) ∧
        ps'.Pairwise (fun a c => ¬ irect_overlaps a c) ∧
        (∀ r ∈ ps', irect_in_canvas r canvas) := by
  induction texs with
  | nil =>
    intro b layout textures ps out hlay hpair hcanvas hmem hrun
    cases hrun
    exact ⟨ps, hlay, hpair, hcanvas⟩
  | cons t rest ih =>
    intro b layout textures ps out hlay hpair hcanvas hmem hrun
    unfold run_add_textures at hrun
    cases hstep : add_texture allocate b layout textures t with
    | error e =>
      simp only [hstep] at hrun
      exact Except.noConfusion hrun
    | ok r =>
      simp only [hstep] at hrun
      obtain ⟨ps', hpad, hlay', hpair', hcanvas', hmem'⟩ :=
        add_texture_step_inv allocate canvas placed hc b layout textures t r
          hstep ps hlay hpair hcanvas hmem
      exact ih r.builder r.atlas_layout r.atlas_texture ps' out
        (by rw [hlay', hpad]) hpair' hcanvas' hmem' hrun

/-- Claim C6: along any sequence of `add_texture` calls on one builder,
under the allocator contract (placed rectangles lie inside the canvas and
never overlap previously placed ones), every Published Rectangle in the
layout registry lies within the canvas bounds and the published
rectangles are pairwise non-overlapping. -/
theorem run_add_textures_published_in_canvas_disjoint {σ : Type}
    (allocate : σ → IVec2 → Option IRect × σ) (canvas : UVec2)
    (placed : σ → List IRect) (hc : AllocatorContract allocate canvas placed)
    (texs : List Image) (b : DynamicTextureAtlasBuilder σ)
    (textures : Option Image)
    (out : DynamicTextureAtlasBuilder σ × List URect × Option Image)
    (hrun : run_add_textures allocate texs b [] textures = .ok out) :
    (∀ u ∈ out.2.1, urect_in_canvas u canvas) ∧
    out.2.1.Pairwise (fun u v => ¬ urect_overlaps u v) := by
  obtain ⟨ps', hlay', hpair', hcanvas'⟩ :=
    run_add_textures_inv allocate canvas placed hc texs b [] textures [] out
      rfl List.Pairwise.nil (by simp) (by simp) hrun
  constructor
  · intro u hu
    rw [hlay'] at hu
    rcases List.mem_map.mp hu with ⟨q, hq, rfl⟩
    exact published_of_in_canvas q canvas out.1.padding (hcanvas' q hq)
  · rw [hlay', List.pairwise_map]
    refine hpair'.imp_of_mem ?_
    intro a c ha hcm hnov hov
    exact hnov (published_of_overlaps_mono a c out.1.padding
      (hcanvas' a ha).1 (hcanvas' a ha).2.1
      (hcanvas' c hcm).1 (hcanvas' c hcm).2.1 hov)

theorem run_add_textures_published_in_canvas_disjoint_witness :
    run_add_textures (σ := List IRect)
        (fun s _ => if s = [] then
            (some ⟨⟨0, 0⟩, ⟨1, 1⟩⟩, [(⟨⟨0, 0⟩, ⟨1, 1⟩⟩ : IRect)])
          else (none, s))
        [⟨1, 1, 1, [9], true⟩, ⟨1, 1, 1, [9], true⟩] ⟨[], 0⟩ []
        (some ⟨2, 2, 1, [0, 0, 0, 0], true⟩)
      = .ok (⟨[⟨⟨0, 0⟩, ⟨1, 1⟩⟩], 0⟩, [⟨⟨0, 0⟩, ⟨1, 1⟩⟩],
             some ⟨2, 2, 1, [9, 0, 0, 0], true⟩) ∧
    (∀ u ∈ [(⟨⟨0, 0⟩, ⟨1, 1⟩⟩ : URect)], urect_in_canvas u ⟨2, 2⟩) ∧
    ([(⟨⟨0, 0⟩, ⟨1, 1⟩⟩ : URect)]).Pairwise (fun u v => ¬ urect_overlaps u v) :=
  ⟨by rfl,
   run_add_textures_published_in_canvas_disjoint
     (fun s _ => if s = [] then
         (some ⟨⟨0, 0⟩, ⟨1, 1⟩⟩, [(⟨⟨0, 0⟩, ⟨1, 1⟩⟩ : IRect)])
       else (none, s))
     ⟨2, 2⟩ (fun s => s)
     (by
       constructor
       · intro s sz r s' h
         by_cases hs : s = []
         · rw [if_pos hs] at h
           cases h
           subst hs
           exact ⟨by decide, by simp, rfl⟩
         · rw [if_neg hs] at h
           exact absurd h (by simp)
       · intro s sz s' h
         by_cases hs : s = []
         · rw [if_pos hs] at h
           exact absurd h (by simp)
         · rw [if_neg hs] at h
           cases h
           rfl)
     [⟨1, 1, 1, [9], true⟩, ⟨1, 1, 1, [9], true⟩] ⟨[], 0⟩
     (some ⟨2, 2, 1, [0, 0, 0, 0], true⟩)
     (⟨[⟨⟨0, 0⟩, ⟨1, 1⟩⟩], 0⟩, [⟨⟨0, 0⟩, ⟨1, 1⟩⟩],
      some ⟨2, 2, 1, [9, 0, 0, 0], true⟩)
     (by rfl)⟩

end DynAtlas
